import Mathlib

/-!
Shallow embedding of the catalog manager of `nonebot_plugin_doroending`
(`model.py`: `DoroEndingManager` and its operations; `__init__.py`:
the daily-pick handler `handle_doro_ending`), together with theorems
settling the specification claims about it.

File-system and network effects are made explicit: each operation that
touches the disk or the network takes the outcome of those external
events as parameters (does the file exist, does the rename succeed,
what the HTTP response looked like) and reports which file names it
wrote, so the theorems can speak about the on-disk effects.
-/

/-- The `DoroEnding` dataclass of `model.py` (lines 39-45):
`id`, `name`, `english_name`, and `pic` defaulting to `""`. -/
structure DoroEnding where
  id : Int
  name : String
  english_name : String
  pic : String := ""
deriving Repr, DecidableEq

/-- The in-memory state of `DoroEndingManager`: the `_data` dict
(`datas`, `max_id`, `total`) plus the `_dirty` flag (lines 90-95). -/
structure MgrState where
  datas : List DoroEnding
  max_id : Int
  total : Int
  dirty : Bool
deriving Repr, DecidableEq

/-- The initial manager state from `__init__` (lines 90-95). -/
def MgrState.initial : MgrState := ⟨[], 0, 0, false⟩

/-- Embeds `get_ending_by_id` (lines 167-172): first entry whose `id` matches. -/
def get_ending_by_id (s : MgrState) (ending_id : Int) : Option DoroEnding :=
  s.datas.find? (fun e => e.id == ending_id)

/-- Embeds `get_ending_by_name` (lines 174-179): first entry whose `name`
matches, compared with `==` (case-sensitive, `name` field only). -/
def get_ending_by_name (s : MgrState) (name : String) : Option DoroEnding :=
  s.datas.find? (fun e => e.name == name)

/-- The `ImageConfig.max_size` default (line 23): 10 MiB. -/
def max_size : Nat := 10 * 1024 * 1024

/-- The `ImageConfig.max_filename_length` default (line 26). -/
def max_filename_length : Nat := 255

/-- Characters replaced by `_` in `_sanitize_filename`
(`re.sub` character class at line 195). -/
def illegalFilenameChar (c : Char) : Bool :=
  c = '<' || c = '>' || c = ':' || c = '"' || c = '/' ||
  c = '\\' || c = '|' || c = '?' || c = '*'

/-- Index of the last `.` in a list of characters (CPython
`str.rfind` restricted to what `pathlib` needs). -/
def lastDotIdx : List Char → Nat → Option Nat → Option Nat
  | [], _, acc => acc
  | c :: cs, i, acc => lastDotIdx cs (i + 1) (if c = '.' then some i else acc)

/-- CPython `pathlib` splits a file name into stem and suffix at the last
dot, provided that dot is neither the first nor the last character. -/
def pySplitExt (name : String) : String × String :=
  match lastDotIdx name.toList 0 none with
  | some i =>
      if 0 < i ∧ i < name.length - 1 then
        ((name.toList.take i).asString, (name.toList.drop i).asString)
      else (name, "")
  | none => (name, "")

/-- CPython `Path.stem` of a bare file name. -/
def pyStem (name : String) : String := (pySplitExt name).1

/-- CPython `Path.with_suffix(suffix)` on a bare file name: the stem followed by
the new suffix (with `""` this strips the current suffix). -/
def pyWithSuffix (name suffix : String) : String := pyStem name ++ suffix

/-- Embeds `_sanitize_filename` (lines 192-208): replace illegal characters by
`_`, then cap the length at `max_filename_length`, truncating the stem
while keeping the suffix, or keeping only the tail of the suffix when
the suffix alone exceeds the limit. -/
def sanitize_filename (filename : String) : String :=
  let f := (filename.toList.map (fun c => if illegalFilenameChar c then '_' else c)).asString
  if f.length > max_filename_length then
    let stem := (pySplitExt f).1
    let suffix := (pySplitExt f).2
    if suffix.length < max_filename_length then
      (stem.toList.take (max_filename_length - suffix.length)).asString ++ suffix
    else
      (suffix.toList.drop (suffix.length - max_filename_length)).asString
  else f

/-- CPython `f"{n:08d}"`: zero-pad the decimal form to width 8
(sign included for negative numbers). -/
def pad8 (n : Int) : String :=
  let digits := toString n.natAbs
  if n < 0 then
    "-" ++ String.mk (List.replicate (7 - digits.length) '0') ++ digits
  else
    String.mk (List.replicate (8 - digits.length) '0') ++ digits

/-- Python truthiness of an optional string (`if image_url`):
present and non-empty. -/
def truthyStr : Option String → Bool
  | some s => !(s == "")
  | none => false

/-- Python truthiness of optional `bytes` (`if image_bytes`), the bytes
being modelled by their length: present and non-empty. -/
def truthyBytes : Option Nat → Bool
  | some n => !(n == 0)
  | none => false

deriving instance DecidableEq for Except

/-- The external events seen by one HTTP GET inside
`_download_and_save_image`: whether the request raised
(`aiohttp.ClientError` / timeout / bad status via `raise_for_status`),
the declared `Content-Length` header if any, the actual body size in
bytes, and whether writing the file succeeded. -/
structure NetResp where
  netError : Bool
  contentLength : Option Nat
  bodyLen : Nat
  writeOk : Bool
deriving Repr, DecidableEq

/-- What one call to `_download_and_save_image` did: its return value
(`Except` error = an `OSError` escaping the function, since the
`except` clause at line 271 catches only `aiohttp.ClientError` and
`asyncio.TimeoutError`), whether the response body was read, and the
name of the file written with the body, if any. -/
structure DlOutcome where
  result : Except Unit Bool
  bodyRead : Bool
  written : Option String
deriving Repr, DecidableEq

/-- Embeds `_download_and_save_image` (lines 227-273). A network/timeout/status
error returns `False`; a declared `Content-Length` above `max_size`
returns `False` before the body is read; an actual body size above
`max_size` returns `False`; otherwise the body is written to
`save_path.with_suffix(".jpg")` and `True` is returned. A write
`OSError` escapes (modelled as `Except.error`). -/
def download_and_save_image (save_path : String) (resp : NetResp) : DlOutcome :=
  if resp.netError then ⟨.ok false, false, none⟩
  else
    match resp.contentLength with
    | some cl =>
        if cl > max_size then ⟨.ok false, false, none⟩
        else downloadBody save_path resp
    | none => downloadBody save_path resp
where
  /-- The part of `_download_and_save_image` from `response.read()` on
  (lines 249-270). -/
  downloadBody (save_path : String) (resp : NetResp) : DlOutcome :=
    if resp.bodyLen > max_size then ⟨.ok false, true, none⟩
    else if resp.writeOk then ⟨.ok true, true, some (pyWithSuffix save_path ".jpg")⟩
    else ⟨.error (), true, none⟩

/-- The error kinds a caller of `add_ending` can see: `ValueError` with
the duplicate-name message (line 286), `ValueError` with the
save-failed message (lines 334-337, wrapping `OSError` /
`aiohttp.ClientError` / `ValueError` raised while handling the image),
or the `RuntimeError` of line 330 (download returned `False`), which
the `except` clause at line 331 does not catch. -/
inductive AddErr
  | duplicateName
  | saveFailed
  | downloadFailed
deriving Repr, DecidableEq

/-- What one call to `add_ending` did: its result, the manager state
afterwards, and the name of the image file written on disk, if any. -/
structure AddOutcome where
  result : Except AddErr DoroEnding
  state : MgrState
  written : Option String
deriving Repr, DecidableEq

/-- The successful tail of `add_ending` (lines 338-351): build the new
entry, append it, set `max_id`, increment `total`, mark dirty. -/
def addCommit (s : MgrState) (name english_name : String) (new_id : Int)
    (pic : String) (written : Option String) : AddOutcome :=
  let e : DoroEnding := ⟨new_id, name, english_name, pic⟩
  ⟨.ok e,
   ⟨s.datas ++ [e], new_id, s.total + 1, true⟩,
   written⟩

/-- Embeds `add_ending` (lines 275-351). `image_bytes` is modelled by its
length (file contents do not matter to the claims); `resp` is the HTTP
outcome consumed when the URL branch downloads; `bytesWriteOk` is
whether the direct byte write of line 314 succeeds. Mirrors the source:
duplicate-name check first, then `new_id = max_id + 1`; if an image
source is truthy, the bytes branch (checked first) writes the bytes to
`pic_path` (no suffix) while recording `pic_path.name + ".jpg"`, and
the URL branch delegates to `_download_and_save_image` and records
`pic_path.with_suffix("").name + ".jpg"`. -/
def add_ending (s : MgrState) (name english_name : String)
    (image_url : Option String) (image_bytes : Option Nat)
    (resp : NetResp) (bytesWriteOk : Bool) : AddOutcome :=
  if (get_ending_by_name s name).isSome then ⟨.error .duplicateName, s, none⟩
  else
    let new_id := s.max_id + 1
    if truthyStr image_url || truthyBytes image_bytes then
      let safe_english_name := sanitize_filename english_name
      let stem_name := pad8 new_id ++ "_" ++ safe_english_name
      if truthyBytes image_bytes then
        if image_bytes.getD 0 > max_size then ⟨.error .saveFailed, s, none⟩
        else if bytesWriteOk then
          addCommit s name english_name new_id (stem_name ++ ".jpg") (some stem_name)
        else ⟨.error .saveFailed, s, none⟩
      else
        let dl := download_and_save_image stem_name resp
        match dl.result with
        | .error _ => ⟨.error .saveFailed, s, dl.written⟩
        | .ok true =>
            addCommit s name english_name new_id
              (pyWithSuffix stem_name "" ++ ".jpg") dl.written
        | .ok false => ⟨.error .downloadFailed, s, dl.written⟩
    else
      addCommit s name english_name new_id "" none

/-- The `target` argument of `remove_ending`: the Python value is
either an `int` or a `str` (line 358 / 360). -/
inductive RemoveTarget
  | byInt (n : Int)
  | byStr (s : String)
deriving Repr, DecidableEq

/-- Python `str.isdigit` restricted to ASCII (non-empty, all digits). -/
def strIsDigit (s : String) : Bool := !(s == "") && s.toList.all Char.isDigit

/-- Python `int(..)` of a digit-only string. -/
def strToNat (s : String) : Nat :=
  s.toList.foldl (fun a c => a * 10 + (c.toNat - 48)) 0

/-- The lookup at lines 356-364 of `remove_ending`: an `int` resolves by
id; a `str` resolves by id when it `isdigit()`, else by name. -/
def resolveTarget (s : MgrState) : RemoveTarget → Option DoroEnding
  | .byInt n => get_ending_by_id s n
  | .byStr t =>
      if strIsDigit t then get_ending_by_id s (strToNat t : Int)
      else get_ending_by_name s t

/-- What one call to `remove_ending` did: its boolean result, the
manager state afterwards, and the image file deleted, if any. -/
structure RemoveOutcome where
  result : Bool
  state : MgrState
  deletedFile : Option String
deriving Repr, DecidableEq

/-- Python `max(item.id for item in datas)` (meaningful on non-empty
lists, which is the only way the source calls it). -/
def maxIdOf : List DoroEnding → Int
  | [] => 0
  | e :: es => es.foldl (fun a x => max a x.id) e.id

/-- Embeds `remove_ending` (lines 353-387). `picExists` / `unlinkOk` are the
file-system outcomes of the `exists` check and `unlink` at lines
371-372; an `OSError` from `unlink` is caught at line 384 and the call
returns `False` with nothing yet mutated. On success the entry is
removed (`list.remove`: first structurally equal element), `total` is
decremented, and `max_id` is recomputed exactly per lines 377-381. -/
def remove_ending (s : MgrState) (target : RemoveTarget)
    (picExists unlinkOk : Bool) : RemoveOutcome :=
  match resolveTarget s target with
  | none => ⟨false, s, none⟩
  | some e =>
      if !(e.pic == "") && picExists && !unlinkOk then ⟨false, s, none⟩
      else
        let datas := s.datas.erase e
        let max_id :=
          if e.id == s.max_id && !datas.isEmpty then maxIdOf datas
          else if datas.isEmpty then 0
          else s.max_id
        ⟨true, ⟨datas, max_id, s.total - 1, true⟩,
         if !(e.pic == "") && picExists then some e.pic else none⟩

/-- A Python value passed in `update_ending`'s `**kwargs`: the entry
attributes are `int` (`id`) or `str` (the rest), so those are the two
value shapes the claims need. -/
inductive PyVal
  | int (n : Int)
  | str (s : String)
deriving Repr, DecidableEq

/-- The errors `update_ending` raises: `ValueError` for a missing id
(line 401), a duplicate Chinese name, or a duplicate English name
(line 416). -/
inductive UpdErr
  | notFound
  | duplicateChineseName
  | duplicateEnglishName
deriving Repr, DecidableEq

/-- What one call to `update_ending` did. -/
structure UpdOutcome where
  result : Except UpdErr DoroEnding
  state : MgrState
deriving Repr

/-- Python `kwargs[k]` on the kwargs modelled as an association list (a Python
dict has unique keys; theorems assume key-uniqueness where it
matters). -/
def kwLookup (kwargs : List (String × PyVal)) (k : String) : Option PyVal :=
  (kwargs.find? (fun p => p.1 == k)).map Prod.snd

/-- Python `hasattr(ending, key)` for a `DoroEnding`: the dataclass has
exactly the attributes `id`, `name`, `english_name`, `pic`. -/
def hasattrE (k : String) : Bool :=
  k == "id" || k == "name" || k == "english_name" || k == "pic"

/-- The string-valued attribute read by the validation loop of
`update_ending` (lines 403-416), which only handles the fields `name`
and `english_name`. -/
def strField (e : DoroEnding) (field_key : String) : String :=
  if field_key == "english_name" then e.english_name else e.name

/-- Python `==` between a kwargs value and a string attribute: values of
a different runtime type compare unequal without raising. -/
def valEqStr : PyVal → String → Bool
  | .str t, s => t == s
  | .int _, _ => false

/-- The duplicate check of `update_ending` for one of the fields
`name` / `english_name` (lines 407-416): the field is present in
kwargs, its value differs from the current one, and some entry with a
different id already holds that value. -/
def nameConflict (s : MgrState) (target : Int) (e : DoroEnding)
    (kwargs : List (String × PyVal)) (field_key : String) : Bool :=
  match kwLookup kwargs field_key with
  | some v =>
      !(valEqStr v (strField e field_key)) &&
      s.datas.any (fun x => x.id != target && valEqStr v (strField x field_key))
  | none => false

/-- Python `getattr(ending, key) != value` for an attribute key with a
value of the matching type. A value of the other runtime type would be
stored unchecked by CPython (the dataclass does not enforce types); the
typed model treats that case as no change, and the theorems only use
well-typed kwargs. -/
def attrChanged (e : DoroEnding) (k : String) : PyVal → Bool
  | .int n => k == "id" && e.id != n
  | .str v =>
      (k == "name" && e.name != v) ||
      (k == "english_name" && e.english_name != v) ||
      (k == "pic" && e.pic != v)

/-- Python `setattr(ending, key, value)` for a well-typed attribute
assignment. -/
def setattrE (e : DoroEnding) (k : String) : PyVal → DoroEnding
  | .int n => if k == "id" then { e with id := n } else e
  | .str v =>
      if k == "name" then { e with name := v }
      else if k == "english_name" then { e with english_name := v }
      else if k == "pic" then { e with pic := v }
      else e

/-- The application loop of `update_ending` (lines 418-426): each kwargs
key naming an attribute whose current value differs is assigned; others
are skipped; `updated` records whether anything changed. -/
def applyKwargs (e : DoroEnding) : List (String × PyVal) → DoroEnding × Bool
  | [] => (e, false)
  | (k, v) :: rest =>
      let changed := hasattrE k && attrChanged e k v
      let e1 := if changed then setattrE e k v else e
      let out := applyKwargs e1 rest
      (out.1, changed || out.2)

/-- In CPython, `setattr` on the found entry mutates the object held in
the list; the model replaces the first entry whose id matches the
target. -/
def replaceFirstById (target : Int) (e : DoroEnding) :
    List DoroEnding → List DoroEnding
  | [] => []
  | x :: xs =>
      if x.id == target then e :: xs
      else x :: replaceFirstById target e xs

/-- Embeds `update_ending` (lines 389-431): resolve the id (else NotFound);
validate `name` then `english_name` against other entries (the
`field_mapping` dict iterates in insertion order); apply every kwargs
key that names an attribute — including `id` and `pic`, which get no
validation; mark dirty only if something actually changed. -/
def update_ending (s : MgrState) (target : Int)
    (kwargs : List (String × PyVal)) : UpdOutcome :=
  match get_ending_by_id s target with
  | none => ⟨.error .notFound, s⟩
  | some e =>
      if nameConflict s target e kwargs "name" then
        ⟨.error .duplicateChineseName, s⟩
      else if nameConflict s target e kwargs "english_name" then
        ⟨.error .duplicateEnglishName, s⟩
      else
        let applied := applyKwargs e kwargs
        ⟨.ok applied.1,
         ⟨replaceFirstById target applied.1 s.datas, s.max_id, s.total,
          s.dirty || applied.2⟩⟩

/-- A parsed JSON value, as `json.loads` produces (numbers restricted to
integers, which is all the catalog file uses). -/
inductive PyJson
  | null
  | bool (b : Bool)
  | num (n : Int)
  | str (s : String)
  | arr (elems : List PyJson)
  | obj (fields : List (String × PyJson))
deriving Repr

/-- Exceptions that `load_from_file` can let escape: its `except` clause
(line 128) catches only `OSError` and `json.JSONDecodeError`, so
shape errors in valid JSON raise `TypeError` / `ValueError` /
`AttributeError` past the boundary. -/
inductive PyExc
  | typeError
  | valueError
  | attributeError
deriving Repr, DecidableEq

/-- What one read of the catalog file yields: the file is absent, the
read raises `OSError`, the content is not valid JSON
(`json.JSONDecodeError`), or it parses to a JSON value. -/
inductive FileRead
  | absent
  | osError
  | unparsable
  | parsed (j : PyJson)
deriving Repr

/-- Python `raw_data.get(k)` on a JSON object's field list. -/
def jGet (fields : List (String × PyJson)) (k : String) : Option PyJson :=
  (fields.find? (fun p => p.1 == k)).map Prod.snd

/-- Python `DoroEnding(**item)` (line 119): the item must be a mapping whose
keys are exactly the dataclass fields (`pic` optional) — otherwise
`TypeError`. CPython would store ill-typed field values unchecked; the
typed model reports `TypeError` for those, and no theorem depends on
such inputs. -/
def entryOfJson : PyJson → Except PyExc DoroEnding
  | .obj fs =>
      if fs.all (fun p => hasattrE p.1) then
        match jGet fs "id", jGet fs "name", jGet fs "english_name" with
        | some (.num i), some (.str n), some (.str en) =>
            match jGet fs "pic" with
            | some (.str p) => .ok ⟨i, n, en, p⟩
            | none => .ok ⟨i, n, en, ""⟩
            | some _ => .error .typeError
        | _, _, _ => .error .typeError
      else .error .typeError
  | _ => .error .typeError

/-- The list comprehension over `raw_data.get("datas", [])` (line 119):
a list is mapped entry by entry, stopping at the first raise; iterating
a non-list raises `TypeError` at its first element (an empty string or
empty mapping iterates zero times and yields `[]`); non-iterables raise
`TypeError`. -/
def datasOfJson : PyJson → Except PyExc (List DoroEnding)
  | .arr xs => xs.mapM entryOfJson
  | .str s => if s == "" then .ok [] else .error .typeError
  | .obj fs => if fs.isEmpty then .ok [] else .error .typeError
  | _ => .error .typeError

/-- Python `int(..)` as applied to the `max_id` / `total` fields (lines
120-121): integers pass through, booleans coerce, digit-only strings
parse (signed and padded string forms are not needed by any claim),
anything else raises. -/
def pyIntOf : PyJson → Except PyExc Int
  | .num n => .ok n
  | .bool b => .ok (if b then 1 else 0)
  | .str s => if strIsDigit s then .ok (strToNat s : Int) else .error .valueError
  | _ => .error .typeError

/-- What one call to `load_from_file` did: its result (`Except.error` =
an exception escaping the call) and the manager state afterwards. -/
structure LoadOutcome where
  result : Except PyExc Bool
  state : MgrState
deriving Repr

/-- Embeds `load_from_file` (lines 102-130): an absent file marks the state
dirty and returns `False`; `OSError` and invalid JSON return `False`
with the state untouched; valid JSON that is not an object raises
`AttributeError` (`raw_data.get` on a non-dict); field-shape errors
raise out of the construction of `loaded_data`, which happens wholly
before `self._data` is assigned, so the prior state survives every
failure. -/
def load_from_file (s : MgrState) (file : FileRead) : LoadOutcome :=
  match file with
  | .absent => ⟨.ok false, { s with dirty := true }⟩
  | .osError => ⟨.ok false, s⟩
  | .unparsable => ⟨.ok false, s⟩
  | .parsed (.obj fs) =>
      match datasOfJson ((jGet fs "datas").getD (.arr [])) with
      | .error e => ⟨.error e, s⟩
      | .ok ds =>
          match pyIntOf ((jGet fs "max_id").getD (.num 0)) with
          | .error e => ⟨.error e, s⟩
          | .ok mi =>
              match pyIntOf ((jGet fs "total").getD (.num 0)) with
              | .error e => ⟨.error e, s⟩
              | .ok t => ⟨.ok true, ⟨ds, mi, t, false⟩⟩
  | .parsed _ => ⟨.error .attributeError, s⟩

/-- The file-system outcomes consumed by one `save_to_file` call:
whether the data file already exists, whether the backup rename
succeeds, whether the write succeeds. -/
structure SaveEnv where
  fileExists : Bool
  renameOk : Bool
  writeOk : Bool
deriving Repr, DecidableEq

/-- What one call to `save_to_file` did: its boolean result, the state
afterwards, whether the backup rename happened, and whether the data
file was written. -/
structure SaveOutcome where
  result : Bool
  state : MgrState
  renamedBackup : Bool
  wroteFile : Bool
deriving Repr, DecidableEq

/-- Embeds `save_to_file` (lines 132-161): a clean state returns `True` without
touching the disk; when dirty, an existing file is renamed to the
`.bak` sibling first, and an `OSError` from the rename or the write is
caught (line 156) and returns `False` with the dirty flag untouched; on
a successful write the dirty flag is cleared and `True` returned. -/
def save_to_file (s : MgrState) (env : SaveEnv) : SaveOutcome :=
  if !s.dirty then ⟨true, s, false, false⟩
  else if env.fileExists && !env.renameOk then ⟨false, s, false, false⟩
  else if !env.writeOk then ⟨false, s, env.fileExists, false⟩
  else ⟨true, { s with dirty := false }, env.fileExists, true⟩

/-- A Python dict key as used by `user_doro_map` in `__init__.py`: keys
written by the handler are `str(event.user_id)` and keys loaded from
JSON are strings, but the stale-entry branch deletes with the raw `int`
`event.user_id` (line 141), so both runtime key types must be
representable. -/
inductive PyKey
  | intKey (n : Int)
  | strKey (s : String)
deriving Repr, DecidableEq

/-- The dict `user_doro_map`, as an insertion-ordered dict. -/
abbrev UserMap := List (PyKey × Int)

/-- Python `k in m`. -/
def mapContains (m : UserMap) (k : PyKey) : Bool := m.any (fun p => p.1 == k)

/-- Python `m[k]` when present. -/
def mapLookup (m : UserMap) (k : PyKey) : Option Int :=
  (m.find? (fun p => p.1 == k)).map Prod.snd

/-- Python `m[k] = v`: replace in place when the key exists, else append. -/
def mapInsert (m : UserMap) (k : PyKey) (v : Int) : UserMap :=
  match m with
  | [] => [(k, v)]
  | p :: rest =>
      if p.1 == k then (k, v) :: rest else p :: mapInsert rest k v

/-- Python `del m[k]` for a present key: remove the first (only) binding. -/
def mapErase (m : UserMap) (k : PyKey) : UserMap :=
  match m with
  | [] => []
  | p :: rest => if p.1 == k then rest else p :: mapErase rest k

/-- The ledger state of `__init__.py`: the module globals
`current_date` and `user_doro_map` (lines 55-57), mirrored by the two
persisted JSON files. -/
structure LedgerState where
  current_date : String
  user_doro_map : UserMap
deriving Repr, DecidableEq

/-- Exceptions that can escape `handle_doro_ending`: `KeyError` from
the `del` at line 141, `ValueError` from `random.randint(1, 0)` at
line 147 on an empty catalog, `IndexError` from `data[doro_ending - 1]`
at line 148. -/
inductive HandlerErr
  | keyError
  | valueError
  | indexError
deriving Repr, DecidableEq

/-- What one daily-pick lookup did: either an escaped exception or a
reply (`some pic` = the image of that entry was sent, `none` = the
handler fell off the end without replying), plus the ledger state
afterwards. -/
structure HandlerOutcome where
  result : Except HandlerErr (Option String)
  ledger : LedgerState
deriving Repr

/-- Embeds `handle_doro_ending` (`__init__.py` lines 104-162). `today` is
`datetime.now().strftime("%Y-%m-%d")`; `randPick` is the value
`random.randint(1, total)` returns when it is reached and does not
raise (so only values in `[1, total]` model real executions). Date
rollover clears the map and stores today. A user with a stored
assignment gets that entry's image if the id still resolves; otherwise
the code executes `del user_doro_map[event.user_id]` with the `int`
key — `KeyError` when only the `str` key is present — and, even when
that deletion succeeds, falls off the end of the `if` branch without
picking a replacement. A user without a stored assignment triggers
`random.randint(1, total)`, which raises `ValueError` when
`total < 1`, then indexes the entry list. -/
def handle_doro_ending (mgr : MgrState) (led : LedgerState) (uid : Int)
    (today : String) (randPick : Nat) : HandlerOutcome :=
  let led1 := if led.current_date != today then ⟨today, []⟩ else led
  let ukey := PyKey.strKey (toString uid)
  if mapContains led1.user_doro_map ukey then
    let doro_id := (mapLookup led1.user_doro_map ukey).getD 0
    match get_ending_by_id mgr doro_id with
    | some info => ⟨.ok (some info.pic), led1⟩
    | none =>
        let ikey := PyKey.intKey uid
        if mapContains led1.user_doro_map ikey then
          ⟨.ok none, ⟨led1.current_date, mapErase led1.user_doro_map ikey⟩⟩
        else ⟨.error .keyError, led1⟩
  else
    if mgr.total < 1 then ⟨.error .valueError, led1⟩
    else
      match mgr.datas.get? (randPick - 1) with
      | none => ⟨.error .indexError, led1⟩
      | some info =>
          ⟨.ok (some info.pic),
           ⟨led1.current_date, mapInsert led1.user_doro_map ukey info.id⟩⟩


/-- The catalog counter invariant of the spec: the stored `total` equals
the number of entries. -/
def totalInv (s : MgrState) : Prop := s.total = (s.datas.length : Int)

instance (s : MgrState) : Decidable (totalInv s) := by
  unfold totalInv; infer_instance

/-- One mutating catalog operation, with the file-system and network
outcomes it consumes. -/
inductive MgrOp
  | add (name english_name : String) (image_url : Option String)
        (image_bytes : Option Nat) (resp : NetResp) (bytesWriteOk : Bool)
  | remove (target : RemoveTarget) (picExists unlinkOk : Bool)

/-- The manager state after one operation. -/
def runOp (s : MgrState) : MgrOp → MgrState
  | .add n en u b r w => (add_ending s n en u b r w).state
  | .remove t pe uo => (remove_ending s t pe uo).state

/-- The manager states reached after each prefix of a sequence of
operations. -/
def statesAfter (s : MgrState) : List MgrOp → List MgrState
  | [] => []
  | op :: ops => runOp s op :: statesAfter (runOp s op) ops

theorem addCommit_totalInv (s : MgrState) (n en : String) (i : Int)
    (p : String) (w : Option String) (h : totalInv s) :
    totalInv (addCommit s n en i p w).state := by
  simp only [totalInv, addCommit, List.length_append, List.length_cons,
    List.length_nil] at h ⊢
  push_cast
  omega

theorem add_ending_totalInv (s : MgrState) (n en : String)
    (u : Option String) (b : Option Nat) (r : NetResp) (w : Bool)
    (h : totalInv s) : totalInv (add_ending s n en u b r w).state := by
  dsimp only [add_ending]
  repeat' split
  all_goals first
    | exact h
    | exact addCommit_totalInv _ _ _ _ _ _ h

theorem resolveTarget_mem {s : MgrState} {t : RemoveTarget}
    {e : DoroEnding} (h : resolveTarget s t = some e) : e ∈ s.datas := by
  cases t with
  | byInt n =>
      simp only [resolveTarget, get_ending_by_id] at h
      exact List.mem_of_find?_eq_some h
  | byStr str =>
      simp only [resolveTarget, get_ending_by_id, get_ending_by_name] at h
      split at h <;> exact List.mem_of_find?_eq_some h

theorem remove_ending_totalInv (s : MgrState) (t : RemoveTarget)
    (pe uo : Bool) (h : totalInv s) :
    totalInv (remove_ending s t pe uo).state := by
  cases hr : resolveTarget s t with
  | none => simpa [remove_ending, hr] using h
  | some e =>
      have hmem : e ∈ s.datas := resolveTarget_mem hr
      have hlen : (s.datas.erase e).length = s.datas.length - 1 :=
        List.length_erase_of_mem hmem
      have hpos : 0 < s.datas.length :=
        List.length_pos.mpr (List.ne_nil_of_mem hmem)
      simp only [remove_ending, hr]
      split
      · exact h
      · simp only [totalInv] at h ⊢
        simp only [hlen]
        omega

/-- C1. For every sequence of add and remove operations starting from a
state where the invariant holds, after each operation the catalog's
stored `total` counter equals the length of its entry sequence
(`model.py` lines 346-348 and 374-381). -/
theorem c1_total_matches_entry_count (s : MgrState) (ops : List MgrOp)
    (h : totalInv s) : ∀ s1 ∈ statesAfter s ops, totalInv s1 := by
  induction ops generalizing s with
  | nil => intro s1 hs1; simp [statesAfter] at hs1
  | cons op ops ih =>
      intro s1 hs1
      have hstep : totalInv (runOp s op) := by
        cases op with
        | add n en u b r w => exact add_ending_totalInv _ _ _ _ _ _ _ h
        | remove t pe uo => exact remove_ending_totalInv _ _ _ _ h
      simp only [statesAfter, List.mem_cons] at hs1
      rcases hs1 with rfl | hs1
      · exact hstep
      · exact ih _ hstep _ hs1

/-- Witness for C1: a concrete add followed by a remove, starting from
the empty catalog. -/
theorem c1_total_matches_entry_count_witness :
    totalInv (runOp (runOp MgrState.initial
      (MgrOp.add "a" "A" none none ⟨false, none, 0, true⟩ true))
      (MgrOp.remove (.byStr "1") true true)) :=
  c1_total_matches_entry_count MgrState.initial
    [MgrOp.add "a" "A" none none ⟨false, none, 0, true⟩ true,
     MgrOp.remove (.byStr "1") true true]
    (by decide) _ (by decide)

/-- C4. For every catalog state and every name X already held by a live
entry, `add_ending` with name X raises the DuplicateName `ValueError`
(the check at lines 283-286 compares with `==` against the `name`
field only), and the whole outcome — entry sequence, `total`, `max_id`,
dirty flag — is the unchanged state, with no file written. -/
theorem c4_duplicate_name_add_rejected (s : MgrState) (X en : String)
    (u : Option String) (b : Option Nat) (r : NetResp) (w : Bool)
    (hdup : ∃ e ∈ s.datas, e.name = X) :
    add_ending s X en u b r w = ⟨.error .duplicateName, s, none⟩ := by
  have hfound : (get_ending_by_name s X).isSome := by
    simp only [get_ending_by_name, List.find?_isSome]
    obtain ⟨e, he, hn⟩ := hdup
    exact ⟨e, he, by simp [hn]⟩
  simp [add_ending, hfound]

/-- Witness for C4: adding a second entry named "a" is rejected and the
state survives unchanged. -/
theorem c4_duplicate_name_add_rejected_witness :
    add_ending ⟨[⟨1, "a", "A", ""⟩], 1, 1, false⟩ "a" "B" none (some 3)
        ⟨false, none, 0, true⟩ true
      = ⟨.error .duplicateName, ⟨[⟨1, "a", "A", ""⟩], 1, 1, false⟩, none⟩ :=
  c4_duplicate_name_add_rejected _ _ _ _ _ _ _
    ⟨⟨1, "a", "A", ""⟩, by decide, rfl⟩

/-- C5. After a successful remove of the entry holding the current
`max_id`, the new `max_id` is the maximum id among the remaining
entries, or 0 when none remain; removing an entry whose id is not
`max_id` leaves `max_id` unchanged when entries remain (`model.py`
lines 377-381). -/
theorem c5_max_id_recomputation (s : MgrState) (target : RemoveTarget)
    (pe uo : Bool) (e : DoroEnding)
    (hres : resolveTarget s target = some e)
    (hok : (remove_ending s target pe uo).result = true) :
    (e.id = s.max_id →
       ((remove_ending s target pe uo).state.datas ≠ [] →
          (remove_ending s target pe uo).state.max_id
            = maxIdOf (remove_ending s target pe uo).state.datas) ∧
       ((remove_ending s target pe uo).state.datas = [] →
          (remove_ending s target pe uo).state.max_id = 0)) ∧
    (e.id ≠ s.max_id →
       (remove_ending s target pe uo).state.datas ≠ [] →
       (remove_ending s target pe uo).state.max_id = s.max_id) := by
  by_cases hskip : (!(e.pic == "") && pe && !uo) = true
  · simp [remove_ending, hres, hskip] at hok
  · simp only [remove_ending, hres, hskip, if_false, Bool.not_eq_true] at *
    constructor
    · intro hid
      have h1 : (e.id == s.max_id) = true := by simp [hid]
      constructor
      · intro hne
        have h2 : (s.datas.erase e).isEmpty = false := by
          simpa using hne
        simp_all
      · intro hne
        have h2 : (s.datas.erase e).isEmpty = true := by
          simp_all
        simp_all
    · intro hid hne
      have h1 : (e.id == s.max_id) = false := by
        simpa using hid
      have h2 : (s.datas.erase e).isEmpty = false := by
        simpa using hne
      simp_all

/-- Witness for C5: removing id 3 (the current `max_id`) from a catalog
with ids 1 and 3 leaves `max_id` equal to the maximum remaining id. -/
theorem c5_max_id_recomputation_witness :
    (remove_ending ⟨[⟨1, "a", "A", ""⟩, ⟨3, "c", "C", ""⟩], 3, 2, false⟩
        (.byInt 3) true true).state.max_id
      = maxIdOf (remove_ending ⟨[⟨1, "a", "A", ""⟩, ⟨3, "c", "C", ""⟩], 3, 2, false⟩
        (.byInt 3) true true).state.datas :=
  ((c5_max_id_recomputation ⟨[⟨1, "a", "A", ""⟩, ⟨3, "c", "C", ""⟩], 3, 2, false⟩
      (.byInt 3) true true ⟨3, "c", "C", ""⟩ rfl rfl).1 rfl).1 (by decide)

/-- C7. The save contract (`model.py` lines 132-161): a clean state is a
successful no-op; when dirty, a failed backup rename aborts the save,
reports failure, and leaves the state (dirty flag included) unchanged;
when the rename (if needed) and the write succeed, the save succeeds
and clears the dirty flag; and every failing save leaves the dirty
flag set. -/
theorem c7_save_contract (s : MgrState) (env : SaveEnv) :
    (s.dirty = false → save_to_file s env = ⟨true, s, false, false⟩) ∧
    (s.dirty = true → env.fileExists = true → env.renameOk = false →
       save_to_file s env = ⟨false, s, false, false⟩) ∧
    (s.dirty = true → (env.fileExists = true → env.renameOk = true) →
       env.writeOk = true →
       (save_to_file s env).result = true ∧
       (save_to_file s env).state = { s with dirty := false }) ∧
    ((save_to_file s env).result = false →
       (save_to_file s env).state.dirty = true) := by
  rcases s with ⟨ds, mi, t, dirty⟩
  rcases env with ⟨fe, ro, wo⟩
  cases dirty <;> cases fe <;> cases ro <;> cases wo <;>
    simp [save_to_file]

/-- Witness for C7: a dirty state whose backup rename fails gets a
failure result, stays dirty, and writes nothing. -/
theorem c7_save_contract_witness :
    save_to_file ⟨[], 0, 3, true⟩ ⟨true, false, true⟩
      = ⟨false, ⟨[], 0, 3, true⟩, false, false⟩ :=
  (c7_save_contract ⟨[], 0, 3, true⟩ ⟨true, false, true⟩).2.1 rfl rfl rfl

theorem downloadBody_ok_true {p : String} {resp : NetResp}
    (h : (download_and_save_image.downloadBody p resp).result = .ok true) :
    (download_and_save_image.downloadBody p resp).written
      = some (pyStem p ++ ".jpg") := by
  unfold download_and_save_image.downloadBody at h ⊢
  split_ifs at h ⊢ <;> simp_all [pyWithSuffix]

/-- C8. The image acquirer contract (`model.py` lines 227-273): a
network error or timeout returns `False` without raising and without
reading or writing; a declared `Content-Length` above the 10 MiB limit
returns `False` before the body is read; a body whose actual size
exceeds the same limit after reading returns `False` with nothing
written; and every successful fetch writes the body to the destination
stem with a `.jpg` extension. -/
theorem c8_download_contract (save_path : String) (resp : NetResp) :
    (resp.netError = true →
       download_and_save_image save_path resp = ⟨.ok false, false, none⟩) ∧
    (∀ cl, resp.netError = false → resp.contentLength = some cl →
       cl > max_size →
       download_and_save_image save_path resp = ⟨.ok false, false, none⟩) ∧
    (resp.netError = false → (∀ cl ∈ resp.contentLength, cl ≤ max_size) →
       resp.bodyLen > max_size →
       download_and_save_image save_path resp = ⟨.ok false, true, none⟩) ∧
    ((download_and_save_image save_path resp).result = .ok true →
       (download_and_save_image save_path resp).written
         = some (pyStem save_path ++ ".jpg")) := by
  rcases resp with ⟨ne, clh, bl, wo⟩
  refine ⟨?_, ?_, ?_, ?_⟩
  · rintro rfl; rfl
  · rintro cl rfl rfl hgt
    simp [download_and_save_image, hgt]
  · rintro rfl hle hgt
    cases clh with
    | none =>
        simp [download_and_save_image, download_and_save_image.downloadBody, hgt]
    | some cl =>
        have hcl : ¬ (cl > max_size) := by
          have := hle cl rfl
          omega
        simp [download_and_save_image, download_and_save_image.downloadBody,
          hgt, hcl]
  · intro h
    cases ne with
    | true => simp [download_and_save_image] at h
    | false =>
        have hbody :
            download_and_save_image save_path ⟨false, clh, bl, wo⟩
              = download_and_save_image.downloadBody save_path ⟨false, clh, bl, wo⟩
              ∨ (download_and_save_image save_path ⟨false, clh, bl, wo⟩).result
                  = .ok false := by
          cases clh with
          | none => exact Or.inl rfl
          | some cl =>
              by_cases hcl : cl > max_size
              · exact Or.inr (by simp [download_and_save_image, hcl])
              · exact Or.inl (by simp [download_and_save_image, hcl])
        rcases hbody with heq | hfalse
        · rw [heq] at h ⊢
          exact downloadBody_ok_true h
        · rw [hfalse] at h
          simp at h

/-- Witness for C8: a declared `Content-Length` one byte over the limit
aborts with a `False` return, the body unread, nothing written. -/
theorem c8_download_contract_witness :
    download_and_save_image "00000001_x" ⟨false, some (max_size + 1), 0, true⟩
      = ⟨.ok false, false, none⟩ :=
  (c8_download_contract "00000001_x" ⟨false, some (max_size + 1), 0, true⟩).2.1
    (max_size + 1) rfl rfl (Nat.lt_succ_self max_size)

/-- C2 (code bug, `__init__.py` lines 139-142). A user whose stored
daily assignment references a deleted entry id does not get the stale
mapping dropped and a fresh pick: the map holds only string keys
(`str(event.user_id)` at line 150, JSON keys at startup), but the
stale branch executes `del user_doro_map[event.user_id]` with the raw
`int` key, which raises `KeyError` out of the handler: catalog with
only entry id 2, user 42 mapped to the deleted id 1, same-day
lookup. Even were the key type right, the branch falls off the end of
the handler without picking a replacement entry. -/
theorem c2_stale_assignment_raises_key_error :
    (handle_doro_ending ⟨[⟨2, "b", "B", "two.jpg"⟩], 2, 1, false⟩
        ⟨"2026-10-12", [(.strKey "42", 1)]⟩ 42 "2026-10-12" 1)
      = ⟨.error .keyError, ⟨"2026-10-12", [(.strKey "42", 1)]⟩⟩ := by
  rfl

/-- C3 (code bug, `__init__.py` lines 144-150). With an empty catalog
and a user who has no stored assignment, the fresh-pick branch calls
`random.randint(1, 0)`, which raises `ValueError` out of the handler —
there is no "no data" report in `handle_doro_ending` (unlike the list
handler's explicit empty-catalog message), whatever value the random
draw would have produced. -/
theorem c3_empty_catalog_raises_value_error (randPick : Nat) :
    (handle_doro_ending MgrState.initial ⟨"2026-10-12", []⟩ 7 "2026-10-12"
        randPick).result
      = .error .valueError := by
  rfl

/-- C9 (code bug, `model.py` lines 312-315). A successful add with raw
bytes records `pic_path.name + ".jpg"` in the entry's `pic` field but
writes the bytes to `pic_path`, which has no `.jpg` suffix: the JSON
record says `00000001_test.jpg` while the file on disk is
`00000001_test`, so record and disk disagree. -/
theorem c9_bytes_branch_records_jpg_but_writes_bare :
    (add_ending MgrState.initial "alpha" "test" none (some 5)
        ⟨false, none, 0, true⟩ true).result
      = .ok ⟨1, "alpha", "test", "00000001_test.jpg"⟩ ∧
    (add_ending MgrState.initial "alpha" "test" none (some 5)
        ⟨false, none, 0, true⟩ true).written
      = some "00000001_test" := by
  constructor <;> decide

/-- Counterexample for C6: valid JSON whose shape is wrong — an entry
object `{}` missing the required dataclass fields — makes
`DoroEnding(**item)` raise `TypeError`, which the `except (OSError,
json.JSONDecodeError)` clause does not catch: the call raises instead
of returning the `False` failure indicator. -/
theorem c6_counterexample_wrong_shape_raises :
    (load_from_file MgrState.initial
        (.parsed (.obj [("datas", .arr [.obj []])]))).result
      = .error .typeError ∧
    (load_from_file ⟨[⟨1, "a", "A", ""⟩], 1, 1, false⟩
        (.parsed (.obj [("datas", .arr [.obj []])]))).result
      ≠ .ok false := by
  constructor
  · rfl
  · decide

/-- C6 (amended). Unreadable files (`OSError`) and content that is not
valid JSON return the `False` failure indicator with the in-memory
state exactly as before; an absent file returns `False` and only sets
the dirty flag; and whenever an exception escapes (`TypeError` /
`ValueError` / `AttributeError` from valid JSON of the wrong shape,
per the counterexample), the in-memory state is still exactly what it
was before the call — `self._data` is only assigned after `loaded_data`
is built in full (`model.py` lines 117-124), so good state is never
partially overwritten. -/
theorem c6_load_failure_contract (s : MgrState) (file : FileRead) :
    (file = .unparsable → load_from_file s file = ⟨.ok false, s⟩) ∧
    (file = .osError → load_from_file s file = ⟨.ok false, s⟩) ∧
    (file = .absent →
       load_from_file s file = ⟨.ok false, { s with dirty := true }⟩) ∧
    (∀ exc, (load_from_file s file).result = .error exc →
       (load_from_file s file).state = s) := by
  refine ⟨fun h => by subst h; rfl, fun h => by subst h; rfl,
    fun h => by subst h; rfl, ?_⟩
  intro exc h
  cases file with
  | absent => simp [load_from_file] at h
  | osError => rfl
  | unparsable => rfl
  | parsed j =>
      cases j with
      | null => rfl
      | bool b => rfl
      | num n => rfl
      | str t => rfl
      | arr xs => rfl
      | obj fs =>
          cases hd : datasOfJson ((jGet fs "datas").getD (.arr [])) with
          | error exc2 => simp [load_from_file, hd]
          | ok ds =>
              cases hm : pyIntOf ((jGet fs "max_id").getD (.num 0)) with
              | error exc2 => simp [load_from_file, hd, hm]
              | ok mi =>
                  cases ht : pyIntOf ((jGet fs "total").getD (.num 0)) with
                  | error exc2 => simp [load_from_file, hd, hm, ht]
                  | ok t => simp [load_from_file, hd, hm, ht] at h

/-- Witness for C6: loading unparsable content over a non-empty catalog
returns `False` and leaves the catalog untouched. -/
theorem c6_load_failure_contract_witness :
    load_from_file ⟨[⟨1, "a", "A", ""⟩], 1, 1, false⟩ .unparsable
      = ⟨.ok false, ⟨[⟨1, "a", "A", ""⟩], 1, 1, false⟩⟩ :=
  (c6_load_failure_contract ⟨[⟨1, "a", "A", ""⟩], 1, 1, false⟩ .unparsable).1 rfl

/-- C10. The update contract (`model.py` lines 403-431): a kwargs key
naming any `DoroEnding` attribute is applied — `id` and `pic` included,
with no uniqueness validation, even to a value another entry already
holds — while duplicate validation fires only for the `name` /
`english_name` keys, and a key naming no attribute is skipped with the
entry and the dirty flag untouched. -/
theorem c10_update_contract (s : MgrState) (tgt : Int) (e : DoroEnding)
    (n : Int) (p : String) (k : String) (v : PyVal) (N : String)
    (he : get_ending_by_id s tgt = some e) :
    ((update_ending s tgt [("id", .int n)]).result
        = .ok { e with id := n }) ∧
    ((update_ending s tgt [("pic", .str p)]).result
        = .ok { e with pic := p }) ∧
    (hasattrE k = false →
       (update_ending s tgt [(k, v)]).result = .ok e ∧
       (update_ending s tgt [(k, v)]).state.dirty = s.dirty) ∧
    (N ≠ e.name → (∃ x ∈ s.datas, x.id ≠ tgt ∧ x.name = N) →
       (update_ending s tgt [("name", .str N)]).result
         = .error .duplicateChineseName) := by
  refine ⟨?_, ?_, ?_, ?_⟩
  · by_cases hn : e.id = n
    · simp [update_ending, he, nameConflict, kwLookup, applyKwargs,
        hasattrE, attrChanged, setattrE, hn]
      cases e
      simp_all
    · simp [update_ending, he, nameConflict, kwLookup, applyKwargs,
        hasattrE, attrChanged, setattrE, hn]
  · by_cases hp : e.pic = p
    · simp [update_ending, he, nameConflict, kwLookup, applyKwargs,
        hasattrE, attrChanged, setattrE, hp]
      cases e
      simp_all
    · simp [update_ending, he, nameConflict, kwLookup, applyKwargs,
        hasattrE, attrChanged, setattrE, hp]
  · intro hk
    have h1 : (k == "name") = false := by
      simp only [hasattrE, Bool.or_eq_false_iff] at hk
      exact hk.1.1.2
    have h2 : (k == "english_name") = false := by
      simp only [hasattrE, Bool.or_eq_false_iff] at hk
      exact hk.1.2
    constructor
    · simp [update_ending, he, nameConflict, kwLookup, applyKwargs, hk, h1, h2]
    · simp [update_ending, he, nameConflict, kwLookup, applyKwargs, hk, h1, h2]
  · intro hne hex
    obtain ⟨x, hx, hxid, hxname⟩ := hex
    have hc : nameConflict s tgt e [("name", .str N)] "name" = true := by
      have hl : kwLookup [("name", PyVal.str N)] "name" = some (.str N) := rfl
      simp only [nameConflict, hl, valEqStr, strField, Bool.and_eq_true]
      refine ⟨by simpa using hne, ?_⟩
      rw [List.any_eq_true]
      exact ⟨x, hx, by simp [hxid, hxname.symm]⟩
    simp [update_ending, he, hc]

/-- Witness for C10: on a catalog with ids 1 and 2, updating entry 1's
`id` to 7 is applied without validation, while updating its `name` to
entry 2's name is rejected as a duplicate. -/
theorem c10_update_contract_witness :
    (update_ending ⟨[⟨1, "a", "A", ""⟩, ⟨2, "b", "B", ""⟩], 2, 2, false⟩ 1
        [("id", .int 7)]).result = .ok ⟨7, "a", "A", ""⟩ ∧
    (update_ending ⟨[⟨1, "a", "A", ""⟩, ⟨2, "b", "B", ""⟩], 2, 2, false⟩ 1
        [("name", .str "b")]).result = .error .duplicateChineseName :=
  ⟨(c10_update_contract ⟨[⟨1, "a", "A", ""⟩, ⟨2, "b", "B", ""⟩], 2, 2, false⟩ 1
      ⟨1, "a", "A", ""⟩ 7 "" "bogus" (.int 0) "b" rfl).1,
   (c10_update_contract ⟨[⟨1, "a", "A", ""⟩, ⟨2, "b", "B", ""⟩], 2, 2, false⟩ 1
      ⟨1, "a", "A", ""⟩ 7 "" "bogus" (.int 0) "b" rfl).2.2.2
      (by decide) ⟨⟨2, "b", "B", ""⟩, by decide, by decide, rfl⟩⟩
